import Mathlib

/-
Verification development for the Aptus legal-document assistant
(browser single-page app with a Gemini service layer).

The definitions below are a shallow embedding of the TypeScript sources:
  src/services/gemini.ts   (retry wrapper, file processing, analyzeDocument)
  src/App.tsx              (handleSubmit, handleReset, status state)
  src/components/InputCard.tsx (handleFiles validation, submit button guard)
  src/types.ts             (AptusResponse, InputState, AppStatus)

Browser effects (FileReader, canvas, network) are passed in as explicit
function parameters; thrown JS errors are modelled with Except; JS numbers
used by the retry/backoff and size checks are Nat, and the image-resize
arithmetic is modelled over the exact rationals.
-/

namespace Aptus

/-- Model of a thrown JS error value as observed by the code under test:
an optional `message` string and an optional numeric `status` field
(`error.message?.includes(...)` and `error.status` in gemini.ts). -/
structure JsError where
  message : Option String
  status : Option Nat
deriving DecidableEq, Repr

/-- Character-list version of a "starts with" test, used to model JS
`String.prototype.includes` without any parsing shortcuts. -/
def charsStart : List Char → List Char → Bool
  | [], _ => true
  | _ :: _, [] => false
  | a :: as, b :: bs => a == b && charsStart as bs

/-- Model of JS `hay.includes(needle)`: `needle` occurs contiguously at some
position of `hay`. -/
def strIncludes (hay needle : String) : Bool :=
  (List.range (hay.data.length + 1)).any (fun i => charsStart needle.data (hay.data.drop i))

/-- Model of JS `s.startsWith(pre)`. -/
def strStarts (s pre : String) : Bool :=
  charsStart pre.data s.data

/-- Model of JS `s.trim()`: strip leading and trailing whitespace. -/
def jsTrim (s : String) : String :=
  String.mk (((s.data.dropWhile Char.isWhitespace).reverse.dropWhile Char.isWhitespace).reverse)

/-- Model of JS `m?.includes(sub)` on an optional string: `undefined` is falsy. -/
def optIncludes (m : Option String) (sub : String) : Bool :=
  match m with
  | none => false
  | some s => strIncludes s sub

/-- gemini.ts line 6: `const MAX_RETRIES = 3`. -/
def MAX_RETRIES : Nat := 3

/-- gemini.ts line 7: `const INITIAL_RETRY_DELAY = 1000`. -/
def INITIAL_RETRY_DELAY : Nat := 1000

/-- gemini.ts line 185:
`const isClientError = error.message?.includes('400') || error.status === 400`. -/
def isClientError (e : JsError) : Bool :=
  optIncludes e.message "400" || e.status == some 400

/-- gemini.ts line 186:
`const isQuotaError = error.message?.includes('429') || error.status === 429`. -/
def isQuotaError (e : JsError) : Bool :=
  optIncludes e.message "429" || e.status == some 429

/-- gemini.ts lines 176-196, `callWithRetry`. The operation `fn` is modelled
as a function from the attempt index (0 for the initial attempt) to its
outcome, so that distinct attempts may fail differently. The result is
instrumented: it carries the value or final thrown error, the number of
invocations of `fn` performed, and the list of backoff delays awaited
(in milliseconds, in order). On an error the JS code rethrows when
`(isClientError && !isQuotaError) || retries <= 0`; otherwise it waits
`backoff` ms and recurses with `retries - 1` and `backoff * 2`. -/
def callWithRetry {T : Type} (fn : Nat → Except JsError T)
    (attempt retries backoff : Nat) : Except JsError T × Nat × List Nat :=
  match fn attempt with
  | Except.ok v => (Except.ok v, 1, [])
  | Except.error e =>
    match retries with
    | 0 => (Except.error e, 1, [])
    | r + 1 =>
      if isClientError e && !isQuotaError e then
        (Except.error e, 1, [])
      else
        let rest := callWithRetry fn (attempt + 1) r (backoff * 2)
        (rest.1, rest.2.1 + 1, backoff :: rest.2.2)

/-- A parsed JSON value, the result of `JSON.parse` on the model response text
(gemini.ts line 288). Numbers are irrelevant to every claim and are kept as
integers. -/
inductive Json where
  | str : String → Json
  | num : Int → Json
  | bool : Bool → Json
  | null : Json
  | arr : List Json → Json
  | obj : List (String × Json) → Json

/-- Field lookup on a JSON object, first binding wins. -/
def jsonField (fields : List (String × Json)) (name : String) : Option Json :=
  (fields.find? (fun f => f.1 == name)).map (fun f => f.2)

/-- Whether a JSON value is a string (`Type.STRING` in the schema). -/
def isStringJson : Json → Bool
  | Json.str _ => true
  | _ => false

/-- gemini.ts lines 19-26, the `items` schema of `ruleLens`: an object with
required string properties `term` and `definition`. -/
def matchesRuleLensItemSchema (j : Json) : Bool :=
  match j with
  | Json.obj fields =>
    (match jsonField fields "term" with
     | some v => isStringJson v
     | none => false) &&
    (match jsonField fields "definition" with
     | some v => isStringJson v
     | none => false)
  | _ => false

/-- gemini.ts lines 9-39, `responseSchema`: an object with required
properties `tldr` (string), `ruleLens` (array of term/definition objects),
`actionableSteps` (array of strings) and `sourceCitation` (string). A JSON
value satisfies this predicate exactly when it conforms to the declared
schema, which is what the external API contract promises to return. -/
def matchesResponseSchema (j : Json) : Bool :=
  match j with
  | Json.obj fields =>
    (match jsonField fields "tldr" with
     | some v => isStringJson v
     | none => false) &&
    (match jsonField fields "ruleLens" with
     | some (Json.arr xs) => xs.all matchesRuleLensItemSchema
     | _ => false) &&
    (match jsonField fields "actionableSteps" with
     | some (Json.arr xs) => xs.all isStringJson
     | _ => false) &&
    (match jsonField fields "sourceCitation" with
     | some v => isStringJson v
     | none => false)
  | _ => false

/-- types.ts lines 1-4, `RuleLensItem`. -/
structure RuleLensItem where
  term : String
  definition : String
deriving DecidableEq, Repr

/-- types.ts lines 6-11, `AptusResponse`. -/
structure AptusResponse where
  tldr : String
  ruleLens : List RuleLensItem
  actionableSteps : List String
  sourceCitation : String
deriving DecidableEq, Repr

/-- Projection of a JSON value to a string. -/
def asString : Json → Option String
  | Json.str s => some s
  | _ => none

/-- Sequential traversal of a list under Option, failing when any element
fails (used to read typed lists out of JSON arrays). -/
def optMapList {α β : Type} (f : α → Option β) : List α → Option (List β)
  | [] => some []
  | x :: xs =>
    match f x, optMapList f xs with
    | some y, some ys => some (y :: ys)
    | _, _ => none

/-- Reading one `ruleLens` entry of an `AptusResponse` out of a JSON value. -/
def decodeRuleLensItem (j : Json) : Option RuleLensItem :=
  match j with
  | Json.obj fields =>
    match jsonField fields "term", jsonField fields "definition" with
    | some (Json.str t), some (Json.str d) => some ⟨t, d⟩
    | _, _ => none
  | _ => none

/-- A JSON value seen at the `AptusResponse` type of types.ts: the decode
succeeds exactly when the value has a string `tldr`, a `ruleLens` list of
term/definition string pairs, an `actionableSteps` list of strings and a
string `sourceCitation`. gemini.ts performs `JSON.parse(...) as AptusResponse`
with no runtime check, so this predicate is the shape the rest of the app
assumes of the returned value. -/
def decodeAptusResponse (j : Json) : Option AptusResponse :=
  match j with
  | Json.obj fields =>
    match jsonField fields "tldr", jsonField fields "ruleLens",
          jsonField fields "actionableSteps", jsonField fields "sourceCitation" with
    | some (Json.str t), some (Json.arr rl), some (Json.arr steps), some (Json.str c) =>
      match optMapList decodeRuleLensItem rl, optMapList asString steps with
      | some rl2, some steps2 => some ⟨t, rl2, steps2, c⟩
      | _, _ => none
    | _, _, _, _ => none
  | _ => none

/-- The two `type` tags of the `ProcessedPart` interface (gemini.ts line 42). -/
inductive PPType where
  | inline_data
  | text_content
deriving DecidableEq, Repr

/-- gemini.ts lines 41-46, the `ProcessedPart` interface produced by
`processFilesForGemini` and consumed by `analyzeDocument`. -/
structure ProcessedPart where
  type : PPType
  mimeType : Option String
  data : Option String
  text : Option String
deriving DecidableEq, Repr

/-- A request part as pushed onto `parts` in analyzeDocument
(gemini.ts lines 230-248): inline data with a MIME type, or plain text. -/
inductive Part where
  | inlineData (mimeType data : String) : Part
  | text (t : String) : Part
deriving DecidableEq, Repr

/-- JS truthiness of an optional string: `undefined` and `""` are falsy. -/
def truthyOpt : Option String → Bool
  | none => false
  | some s => !(s == "")

/-- gemini.ts lines 230-241, the body of the `files.forEach` loop: a
`ProcessedPart` contributes an inline-data part when its tag is
`inline_data` and both `data` and `mimeType` are truthy, a text part when
its tag is `text_content` and `text` is truthy, and nothing otherwise. -/
def toPart (p : ProcessedPart) : Option Part :=
  if p.type == PPType.inline_data && truthyOpt p.data && truthyOpt p.mimeType then
    some (Part.inlineData (p.mimeType.getD "") (p.data.getD ""))
  else if p.type == PPType.text_content && truthyOpt p.text then
    some (Part.text (p.text.getD ""))
  else none

/-- gemini.ts lines 227-248: the request parts are the contributions of the
processed files, in order, followed by the typed text as a
`User Text Input:` part when `text.trim()` is truthy. -/
def buildParts (text : String) (files : List ProcessedPart) : List Part :=
  files.filterMap toPart ++
    (if jsTrim text == "" then [] else [Part.text ("User Text Input:\n" ++ text)])

/-- The observable part of a generateContent reply (gemini.ts lines 272-288):
`finishReason` is the first candidate's finish reason when present, and
`body` is the parsed response payload — `some j` models a non-empty
`response.text` parsing to `j`, while `none` models an absent or empty
`response.text`. -/
structure GenResponse where
  finishReason : Option String
  body : Option Json

/-- gemini.ts lines 283-288: an absent or empty `response.text` raises the
empty-response error, otherwise the parsed payload is returned. -/
def checkBody : Option Json → Except JsError Json
  | none => Except.error ⟨some "The AI returned an empty response. Please try again.", none⟩
  | some j => Except.ok j

/-- gemini.ts lines 271-288: the finish-reason screening (a truthy
finish reason other than STOP raises a blocking error, with dedicated
messages for SAFETY and RECITATION) followed by the payload check. -/
def handleResponse (r : GenResponse) : Except JsError Json :=
  match r.finishReason with
  | some fr =>
    if !(fr == "") && !(fr == "STOP") then
      if fr == "SAFETY" then
        Except.error ⟨some "Analysis blocked. The document contains content flagged as unsafe or sensitive.", none⟩
      else if fr == "RECITATION" then
        Except.error ⟨some "Analysis blocked due to copyright content restrictions.", none⟩
      else
        Except.error ⟨some ("Analysis stopped unexpectedly (Reason: " ++ fr ++ "). Please try a clearer document."), none⟩
    else checkBody r.body
  | none => checkBody r.body

/-- gemini.ts lines 289-303, the catch block of analyzeDocument: errors whose
message mentions 400, 429, 500 or 503 are replaced by friendlier messages;
any other error is rethrown as is. -/
def remapAnalysisError (e : JsError) : JsError :=
  if optIncludes e.message "400" then
    ⟨some "The document is too large or contains prohibited content.", none⟩
  else if optIncludes e.message "429" then
    ⟨some "Service is currently busy. Please try again in a moment.", none⟩
  else if optIncludes e.message "500" || optIncludes e.message "503" then
    ⟨some "Gemini service is temporarily unavailable. Please try again.", none⟩
  else e

/-- gemini.ts lines 198-304, `analyzeDocument`. The network interaction
(`callWithRetry` around `ai.models.generateContent`) is abstracted as `api`,
a function from the constructed parts to either a thrown error or a reply;
every path of the source that precedes the API call is modelled exactly:
the falsy-API-key guard, the construction of `parts` and the empty-parts
guard. Errors raised inside the try block go through the catch-block
remapping. -/
def analyzeDocument (apiKey : Option String) (text : String)
    (files : List ProcessedPart) (api : List Part → Except JsError GenResponse) :
    Except JsError Json :=
  if truthyOpt apiKey = false then
    Except.error ⟨some "System Error: API Key is missing. Please check configuration.", none⟩
  else
    let parts := buildParts text files
    if parts.length == 0 then
      Except.error ⟨some "No input provided. Please upload a file or enter text.", none⟩
    else
      match (match api parts with
             | Except.ok r => handleResponse r
             | Except.error e => Except.error e) with
      | Except.ok j => Except.ok j
      | Except.error e => Except.error (remapAnalysisError e)

/-- The attributes of a browser `File` object read by the code under test:
`name`, MIME `type` and `size` in bytes. -/
structure JsFile where
  name : String
  type : String
  size : Nat
deriving DecidableEq, Repr

/-- gemini.ts lines 124-133, `parseDataUrl`: find the first comma; without
one, throw `Invalid Data URL format`; otherwise the MIME type is
`dataUrl.substring(5, commaIndex).split(';')[0]` (JS `substring` swaps its
bounds when they are out of order) and the data is everything after the
comma. Indices are modelled on the character list of the string. -/
def parseDataUrl (dataUrl : String) : Except JsError (String × String) :=
  let cs := dataUrl.data
  match cs.findIdx? (fun c => c == ',') with
  | none => Except.error ⟨some "Invalid Data URL format", none⟩
  | some i =>
    let lo := min 5 i
    let hi := max 5 i
    let mimeType := String.mk (((cs.drop lo).take (hi - lo)).takeWhile (fun c => !(c == ';')))
    Except.ok (mimeType, String.mk (cs.drop (i + 1)))

/-- gemini.ts lines 142-169, the per-file body of `processFilesForGemini`.
The browser readers are passed explicitly: `rt`models `readFileAsText`,
`rb` models `readFileAsBase64` (a data URL of the original bytes) and `cp`
models `compressImage` (a data URL of the compressed JPEG re-encoding).
A `text/plain` file yields a text part wrapping the raw text between
`[Attached File: <name>]` and `---`; an `image/*` file yields inline data
parsed from the compressed data URL; every other file yields inline data
parsed from the base64 data URL of its original bytes; any failure is
caught and replaced by the `Could not process <name>` error. -/
def processOneFile (rt rb cp : JsFile → Except JsError String) (f : JsFile) :
    Except JsError ProcessedPart :=
  let attempt : Except JsError ProcessedPart :=
    if f.type == "text/plain" then
      (rt f).map (fun t =>
        ⟨PPType.text_content, none, none,
         some ("[Attached File: " ++ f.name ++ "]\n" ++ t ++ "\n---")⟩)
    else if strStarts f.type "image/" then
      (cp f).bind (fun u => (parseDataUrl u).map (fun md =>
        ⟨PPType.inline_data, some md.1, some md.2, none⟩))
    else
      (rb f).bind (fun u => (parseDataUrl u).map (fun md =>
        ⟨PPType.inline_data, some md.1, some md.2, none⟩))
  match attempt with
  | Except.ok p => Except.ok p
  | Except.error _ =>
    Except.error ⟨some ("Could not process " ++ f.name ++ ". Please try a different file."), none⟩

/-- Sequential model of `Promise.all` over per-file processing: one result
per file in input order, the whole computation failing when any file fails. -/
def traverseFiles (g : JsFile → Except JsError ProcessedPart) :
    List JsFile → Except JsError (List ProcessedPart)
  | [] => Except.ok []
  | f :: fs =>
    match g f, traverseFiles g fs with
    | Except.ok p, Except.ok ps => Except.ok (p :: ps)
    | Except.error e, _ => Except.error e
    | Except.ok _, Except.error e => Except.error e

/-- gemini.ts lines 141-171, `processFilesForGemini`:
`Promise.all(files.map(...))` over the per-file processing. -/
def processFilesForGemini (rt rb cp : JsFile → Except JsError String)
    (files : List JsFile) : Except JsError (List ProcessedPart) :=
  traverseFiles (processOneFile rt rb cp) files

/-- gemini.ts line 4: `const MAX_IMAGE_DIMENSION = 1536`, as an exact
rational since the resize arithmetic is on JS numbers. -/
def MAX_IMAGE_DIMENSION : ℚ := 1536

/-- gemini.ts lines 64-78, the resizing step of `compressImage`, over exact
rational arithmetic: when width exceeds height and the maximum dimension,
the height is scaled by `MAX_IMAGE_DIMENSION / width` and the width pinned
to the maximum; symmetrically otherwise; small images pass unchanged. -/
def resizeDims (w h : ℚ) : ℚ × ℚ :=
  if h < w then
    if MAX_IMAGE_DIMENSION < w then (MAX_IMAGE_DIMENSION, h * (MAX_IMAGE_DIMENSION / w))
    else (w, h)
  else
    if MAX_IMAGE_DIMENSION < h then (w * (MAX_IMAGE_DIMENSION / h), MAX_IMAGE_DIMENSION)
    else (w, h)

/-- types.ts lines 19-24, `AppStatus`. -/
inductive AppStatus where
  | IDLE
  | PROCESSING
  | SUCCESS
  | ERROR
deriving DecidableEq, Repr

/-- types.ts lines 13-17, `InputState`, with the file objects as `JsFile`. -/
structure InputState where
  text : String
  files : List JsFile
  language : String
deriving DecidableEq, Repr

/-- The pieces of App.tsx component state that the claims are about
(App.tsx lines 13-35). -/
structure AppState where
  status : AppStatus
  inputState : InputState
  result : Option AptusResponse
  errorMsg : String
  isDarkMode : Bool
deriving DecidableEq, Repr

/-- App.tsx line 76, the fallback of `err.message || "..."`. -/
def submitDefaultError : String :=
  "An unexpected error occurred while analyzing the document."

/-- App.tsx lines 49-78, `handleSubmit`, with the awaited pipeline
(`processFilesForGemini` then `analyzeDocument`) collapsed to its `outcome`:
the handler first clears the error message and the result and moves to
PROCESSING, then on success stores the response and moves to SUCCESS, and
on a thrown error moves to ERROR with the error message (JS `||` makes an
absent or empty message fall back to the default text). `inputState` is
never written. -/
def handleSubmit (s : AppState) (outcome : Except JsError AptusResponse) : AppState :=
  let s1 : AppState :=
    { s with status := AppStatus.PROCESSING, errorMsg := "", result := none }
  match outcome with
  | Except.ok r => { s1 with result := some r, status := AppStatus.SUCCESS }
  | Except.error e =>
    { s1 with
      status := AppStatus.ERROR,
      errorMsg :=
        match e.message with
        | some m => if m == "" then submitDefaultError else m
        | none => submitDefaultError }

/-- App.tsx lines 80-85, `handleReset`: back to IDLE, result cleared, text
and files cleared; the language field and the dark-mode flag are not
touched. -/
def handleReset (s : AppState) : AppState :=
  { s with
    status := AppStatus.IDLE,
    result := none,
    inputState := { s.inputState with text := "", files := [] } }

/-- InputCard.tsx lines 13-14: 20 MB in bytes. -/
def MAX_FILE_SIZE_MB : Nat := 20

/-- InputCard.tsx line 14: `MAX_FILE_SIZE_MB * 1024 * 1024`. -/
def MAX_FILE_SIZE_BYTES : Nat := MAX_FILE_SIZE_MB * 1024 * 1024

/-- InputCard.tsx lines 174-189, the body of the `files.forEach` loop of
`handleFiles`, accumulating the valid files and the validation error
messages in submission order: oversized files are rejected first with the
`exceeds 20MB` message, then files that are neither `image/*` nor PDF nor
plain text are rejected with the `is not supported` message. -/
def handleFilesScan : List JsFile → List JsFile × List String
  | [] => ([], [])
  | f :: fs =>
    let rest := handleFilesScan fs
    if f.size > MAX_FILE_SIZE_BYTES then
      (rest.1, ("\"" ++ f.name ++ "\" exceeds " ++ toString MAX_FILE_SIZE_MB ++ "MB.") :: rest.2)
    else if strStarts f.type "image/" || f.type == "application/pdf" || f.type == "text/plain" then
      (f :: rest.1, rest.2)
    else
      (rest.1, ("\"" ++ f.name ++ "\" is not supported.") :: rest.2)

/-- InputCard.tsx lines 169-195, `handleFiles`: the accepted files are
appended after the already-selected ones and the validation messages are
reported. -/
def handleFiles (prevFiles : List JsFile) (files : List JsFile) :
    List JsFile × List String :=
  let scanned := handleFilesScan files
  (prevFiles ++ scanned.1, scanned.2)

/-- The acceptance rule stated by the claim about `handleFiles`: size at
most 20 MB and MIME type `image/*`, `application/pdf` or `text/plain`. -/
def acceptsFile (f : JsFile) : Bool :=
  decide (f.size ≤ MAX_FILE_SIZE_BYTES) &&
    (strStarts f.type "image/" || f.type == "application/pdf" || f.type == "text/plain")

/-- The per-file rejection message stated by the claim about `handleFiles`:
oversized files get the `exceeds 20MB` message, supported files none, and
everything else the `is not supported` message. -/
def rejectMessage (f : JsFile) : Option String :=
  if f.size > MAX_FILE_SIZE_BYTES then
    some ("\"" ++ f.name ++ "\" exceeds " ++ toString MAX_FILE_SIZE_MB ++ "MB.")
  else if strStarts f.type "image/" || f.type == "application/pdf" || f.type == "text/plain" then
    none
  else
    some ("\"" ++ f.name ++ "\" is not supported.")

/-- The UI state relevant to the one-outstanding-request property: the app
status, the input fields feeding the submit-button guard, whether a
simulated upload is still running, and the (ghost) number of analysis
requests currently in flight. -/
structure UiState where
  status : AppStatus
  text : String
  files : List JsFile
  uploading : Bool
  pending : Nat
deriving DecidableEq, Repr

/-- InputCard.tsx line 249:
`hasContent = inputState.text.trim().length > 0 || inputState.files.length > 0`. -/
def hasContent (text : String) (files : List JsFile) : Bool :=
  decide (0 < (jsTrim text).length) || decide (0 < files.length)

/-- InputCard.tsx line 426 together with App.tsx line 130: the submit button
is `disabled={!hasContent || isLoading || isUploading}` where `isLoading`
is `status === AppStatus.PROCESSING`; this is the negation, the condition
under which a click on the button can fire at all. -/
def submitEnabled (s : UiState) : Bool :=
  hasContent s.text s.files && !(s.status == AppStatus.PROCESSING) && !s.uploading

/-- The initial UI state (App.tsx lines 13-21 and InputCard state). -/
def uiInit : UiState :=
  { status := AppStatus.IDLE, text := "", files := [], uploading := false, pending := 0 }

/-- The event steps of the single-page app that touch the modelled state:
`submit` is a click on the enabled submit button (a disabled button fires
no click events), which starts one analysis request and moves to
PROCESSING (App.tsx lines 49-52); `settle` is the awaited pipeline of an
in-flight request resolving, to SUCCESS or to ERROR (App.tsx lines 64-76);
`reset` is a click on the Analyze-New button, which is rendered only in
the SUCCESS state (App.tsx lines 149-161); `edit` covers every other
event — typing, adding or removing files, upload-progress ticks — none of
which writes `status` or starts a request. -/
inductive UiStep : UiState → UiState → Prop where
  | submit (s : UiState) (h : submitEnabled s = true) :
      UiStep s { s with status := AppStatus.PROCESSING, pending := s.pending + 1 }
  | settle (s : UiState) (ok : Bool) (h : 0 < s.pending) :
      UiStep s { s with
        status := if ok then AppStatus.SUCCESS else AppStatus.ERROR,
        pending := s.pending - 1 }
  | reset (s : UiState) (h : s.status = AppStatus.SUCCESS) :
      UiStep s { s with status := AppStatus.IDLE, text := "", files := [] }
  | edit (s : UiState) (t : String) (fs : List JsFile) (u : Bool) :
      UiStep s { s with text := t, files := fs, uploading := u }

/-- The states the app can reach from its initial state by UI events. -/
inductive Reachable : UiState → Prop where
  | init : Reachable uiInit
  | step {s s' : UiState} : Reachable s → UiStep s s' → Reachable s'

/-- `callWithRetry` always invokes the operation at least once. -/
theorem callWithRetry_count_pos {T : Type} (fn : Nat → Except JsError T) (a r b : Nat) :
    1 ≤ (callWithRetry fn a r b).2.1 := by
  unfold callWithRetry
  cases hfa : fn a with
  | ok v => simp
  | error e =>
    cases r with
    | zero => simp
    | succ r' =>
      by_cases hflag : (isClientError e && !isQuotaError e) = true
      · simp [hflag]
      · simp only [Bool.not_eq_true] at hflag
        simp [hflag]

/-- With no retries left, a failing attempt rethrows at once. -/
theorem callWithRetry_zero {T : Type} (fn : Nat → Except JsError T) (a b : Nat) (e : JsError)
    (hf : fn a = Except.error e) :
    callWithRetry fn a 0 b = (Except.error e, 1, []) := by
  unfold callWithRetry
  rw [hf]

/-- A client (400) error that is not a quota (429) error rethrows at once. -/
theorem callWithRetry_throw {T : Type} (fn : Nat → Except JsError T) (a r b : Nat) (e : JsError)
    (hf : fn a = Except.error e)
    (hflag : (isClientError e && !isQuotaError e) = true) :
    callWithRetry fn a (r + 1) b = (Except.error e, 1, []) := by
  unfold callWithRetry
  rw [hf]
  simp [hflag]

/-- Any other failing attempt waits `b` ms and recurses with doubled backoff. -/
theorem callWithRetry_retry {T : Type} (fn : Nat → Except JsError T) (a r b : Nat) (e : JsError)
    (hf : fn a = Except.error e)
    (hflag : (isClientError e && !isQuotaError e) = false) :
    callWithRetry fn a (r + 1) b =
      ((callWithRetry fn (a + 1) r (b * 2)).1,
       (callWithRetry fn (a + 1) r (b * 2)).2.1 + 1,
       b :: (callWithRetry fn (a + 1) r (b * 2)).2.2) := by
  conv_lhs => unfold callWithRetry
  rw [hf]
  simp [hflag]

/-- C1: for an operation that keeps failing with a retryable error,
`callWithRetry` performs a bounded number of invocations — in general at
most `retries + 1`, and with the default arguments exactly `MAX_RETRIES`
(3) retries after the initial attempt, 4 invocations in total — with
backoff waits of `INITIAL_RETRY_DELAY` (1000) ms doubling before each
subsequent retry (1000, 2000, 4000 ms), and after the last failed attempt
it rethrows the error of that last attempt. -/
theorem callWithRetry_bounded_backoff {T : Type} (fn : Nat → Except JsError T) :
    (∀ a r b, (callWithRetry fn a r b).2.1 ≤ r + 1) ∧
    (∀ es : Nat → JsError, (∀ n, fn n = Except.error (es n)) →
      (∀ n, (isClientError (es n) && !isQuotaError (es n)) = false) →
      callWithRetry fn 0 MAX_RETRIES INITIAL_RETRY_DELAY =
        (Except.error (es 3), 4, [1000, 2000, 4000])) := by
  constructor
  · intro a r b
    induction r generalizing a b with
    | zero =>
      unfold callWithRetry
      cases hfa : fn a with
      | ok v => simp
      | error e => simp
    | succ r' ih =>
      unfold callWithRetry
      cases hfa : fn a with
      | ok v => simp
      | error e =>
        by_cases hflag : (isClientError e && !isQuotaError e) = true
        · simp [hflag]
        · simp only [Bool.not_eq_true] at hflag
          simp only [hflag, Bool.false_eq_true, if_false]
          have := ih (a + 1) (b * 2)
          omega
  · intro es hfail hretry
    have h3 : callWithRetry fn 3 0 8000 = (Except.error (es 3), 1, []) :=
      callWithRetry_zero fn 3 8000 (es 3) (hfail 3)
    have h2 : callWithRetry fn 2 1 4000 = (Except.error (es 3), 2, [4000]) := by
      have hr := callWithRetry_retry fn 2 0 4000 (es 2) (hfail 2) (hretry 2)
      norm_num at hr
      rw [hr, h3]
    have h1 : callWithRetry fn 1 2 2000 = (Except.error (es 3), 3, [2000, 4000]) := by
      have hr := callWithRetry_retry fn 1 1 2000 (es 1) (hfail 1) (hretry 1)
      norm_num at hr
      rw [hr, h2]
    have h0 : callWithRetry fn 0 3 1000 = (Except.error (es 3), 4, [1000, 2000, 4000]) := by
      have hr := callWithRetry_retry fn 0 2 1000 (es 0) (hfail 0) (hretry 0)
      norm_num at hr
      rw [hr, h1]
    exact h0

/-- Witness for C1 at a concrete always-failing retryable operation. -/
theorem callWithRetry_bounded_backoff_witness :
    callWithRetry (T := Unit) (fun _ => Except.error ⟨some "network timeout", none⟩)
        0 MAX_RETRIES INITIAL_RETRY_DELAY =
      (Except.error ⟨some "network timeout", none⟩, 4, [1000, 2000, 4000]) := by
  refine (callWithRetry_bounded_backoff (fun _ => Except.error ⟨some "network timeout", none⟩)).2
      (fun _ => ⟨some "network timeout", none⟩) (fun _ => rfl) (fun n => ?_)
  show (isClientError ⟨some "network timeout", none⟩ &&
        !isQuotaError ⟨some "network timeout", none⟩) = false
  decide

/-- C2 counterexample: a permission error — `403 Forbidden`, neither a
transient network failure nor a quota (429) failure — is not rethrown
immediately: `callWithRetry` invokes the operation 4 times and awaits the
full 1000, 2000, 4000 ms backoff schedule on it. -/
theorem callWithRetry_retries_forbidden_error :
    (callWithRetry (T := Unit)
        (fun _ => Except.error ⟨some "Permission denied (HTTP 403).", some 403⟩)
        0 MAX_RETRIES INITIAL_RETRY_DELAY).2.1 = 4 ∧
    (callWithRetry (T := Unit)
        (fun _ => Except.error ⟨some "Permission denied (HTTP 403).", some 403⟩)
        0 MAX_RETRIES INITIAL_RETRY_DELAY).2.2 = [1000, 2000, 4000] := by
  constructor <;> decide

/-- C2 (amended): on an operation that keeps failing with a fixed error,
`callWithRetry` rethrows immediately — one invocation, no backoff delay —
exactly when the error is recognized as a client (400) error and not as a
quota (429) error, i.e. its message contains `400` or its status is 400,
and neither does its message contain `429` nor is its status 429. Every
other error is retried with backoff; in particular quota (429) errors are
always eligible for retry. -/
theorem callWithRetry_immediate_rethrow_iff {T : Type} (fn : Nat → Except JsError T)
    (e : JsError) (hfail : ∀ n, fn n = Except.error e) :
    ((callWithRetry fn 0 MAX_RETRIES INITIAL_RETRY_DELAY).2.1 = 1 ∧
     (callWithRetry fn 0 MAX_RETRIES INITIAL_RETRY_DELAY).2.2 = []) ↔
      (isClientError e && !isQuotaError e) = true := by
  simp only [MAX_RETRIES, INITIAL_RETRY_DELAY]
  constructor
  · intro hcount
    by_contra hflag
    simp only [Bool.not_eq_true] at hflag
    have hr := callWithRetry_retry fn 0 2 1000 e (hfail 0) hflag
    norm_num at hr
    rw [hr] at hcount
    have hpos := callWithRetry_count_pos fn 1 2 2000
    simp only at hcount
    omega
  · intro hflag
    have ht := callWithRetry_throw fn 0 2 1000 e (hfail 0) hflag
    norm_num at ht
    rw [ht]
    exact ⟨rfl, rfl⟩

/-- Witness for C2 (amended) at a concrete 400 client error. -/
theorem callWithRetry_immediate_rethrow_iff_witness :
    (callWithRetry (T := Unit) (fun _ => Except.error ⟨some "HTTP 400 Bad Request", none⟩)
        0 MAX_RETRIES INITIAL_RETRY_DELAY).2.1 = 1 :=
  ((callWithRetry_immediate_rethrow_iff
      (fun _ => Except.error ⟨some "HTTP 400 Bad Request", none⟩)
      ⟨some "HTTP 400 Bad Request", none⟩ (fun _ => rfl)).mpr (by decide)).1

/-- A JSON value satisfying `isStringJson` is a string literal. -/
theorem isStringJson_eq (v : Json) (h : isStringJson v = true) : ∃ s, v = Json.str s := by
  cases v <;> simp_all [isStringJson]

/-- `asString` succeeds on every JSON string. -/
theorem asString_total (v : Json) (h : isStringJson v = true) :
    (asString v).isSome = true := by
  obtain ⟨s, rfl⟩ := isStringJson_eq v h
  rfl

/-- `optMapList` succeeds when the element reader succeeds on every element. -/
theorem optMapList_total {α β : Type} (f : α → Option β) (xs : List α)
    (h : ∀ x, x ∈ xs → (f x).isSome = true) : (optMapList f xs).isSome = true := by
  induction xs with
  | nil => simp [optMapList]
  | cons x xs ih =>
    have hx := h x (by simp)
    have hxs := ih (fun y hy => h y (by simp [hy]))
    obtain ⟨y, hy⟩ := Option.isSome_iff_exists.mp hx
    obtain ⟨ys, hys⟩ := Option.isSome_iff_exists.mp hxs
    simp [optMapList, hy, hys]

/-- A JSON value conforming to the `ruleLens` item schema decodes to a
`RuleLensItem`. -/
theorem decodeRuleLensItem_total (j : Json) (h : matchesRuleLensItemSchema j = true) :
    (decodeRuleLensItem j).isSome = true := by
  cases j with
  | str s => simp [matchesRuleLensItemSchema] at h
  | num n => simp [matchesRuleLensItemSchema] at h
  | bool b => simp [matchesRuleLensItemSchema] at h
  | null => simp [matchesRuleLensItemSchema] at h
  | arr xs => simp [matchesRuleLensItemSchema] at h
  | obj fields =>
    simp only [matchesRuleLensItemSchema, Bool.and_eq_true] at h
    obtain ⟨h1, h2⟩ := h
    cases ht : jsonField fields "term" with
    | none => simp [ht] at h1
    | some v =>
      simp only [ht] at h1
      cases hd : jsonField fields "definition" with
      | none => simp [hd] at h2
      | some w =>
        simp only [hd] at h2
        obtain ⟨sv, rfl⟩ := isStringJson_eq v h1
        obtain ⟨sw, rfl⟩ := isStringJson_eq w h2
        simp [decodeRuleLensItem, ht, hd]

/-- A JSON value conforming to the declared `responseSchema` decodes to an
`AptusResponse`. -/
theorem decode_of_matches (j : Json) (h : matchesResponseSchema j = true) :
    (decodeAptusResponse j).isSome = true := by
  cases j with
  | str s => simp [matchesResponseSchema] at h
  | num n => simp [matchesResponseSchema] at h
  | bool b => simp [matchesResponseSchema] at h
  | null => simp [matchesResponseSchema] at h
  | arr xs => simp [matchesResponseSchema] at h
  | obj fields =>
    simp only [matchesResponseSchema, Bool.and_eq_true] at h
    obtain ⟨⟨⟨h1, h2⟩, h3⟩, h4⟩ := h
    cases ht : jsonField fields "tldr" with
    | none => simp [ht] at h1
    | some v1 =>
      simp only [ht] at h1
      obtain ⟨t, rfl⟩ := isStringJson_eq v1 h1
      cases hrl : jsonField fields "ruleLens" with
      | none => simp [hrl] at h2
      | some v2 =>
        simp only [hrl] at h2
        cases v2 with
        | str s => simp at h2
        | num n => simp at h2
        | bool b => simp at h2
        | null => simp at h2
        | obj fs => simp at h2
        | arr rl =>
          cases hst : jsonField fields "actionableSteps" with
          | none => simp [hst] at h3
          | some v3 =>
            simp only [hst] at h3
            cases v3 with
            | str s => simp at h3
            | num n => simp at h3
            | bool b => simp at h3
            | null => simp at h3
            | obj fs => simp at h3
            | arr steps =>
              cases hc : jsonField fields "sourceCitation" with
              | none => simp [hc] at h4
              | some v4 =>
                simp only [hc] at h4
                obtain ⟨c, rfl⟩ := isStringJson_eq v4 h4
                have hrl2 : (optMapList decodeRuleLensItem rl).isSome = true :=
                  optMapList_total _ _ (fun x hx =>
                    decodeRuleLensItem_total x (List.all_eq_true.mp h2 x hx))
                have hst2 : (optMapList asString steps).isSome = true :=
                  optMapList_total _ _ (fun x hx =>
                    asString_total x (List.all_eq_true.mp h3 x hx))
                obtain ⟨rl2, hrlEq⟩ := Option.isSome_iff_exists.mp hrl2
                obtain ⟨st2, hstEq⟩ := Option.isSome_iff_exists.mp hst2
                simp [decodeAptusResponse, ht, hrl, hst, hc, hrlEq, hstEq]

/-- C3: the value returned by a successful `analyzeDocument` call is the
parsed response payload, and whenever that payload conforms to the declared
`responseSchema` — which is what the schema contract of the external API
enforces — it satisfies the `AptusResponse` shape: a string `tldr`, a
`ruleLens` list of term/definition string pairs, an `actionableSteps` list
of strings and a string `sourceCitation`. -/
theorem analyzeDocument_success_shape (apiKey : Option String) (text : String)
    (files : List ProcessedPart) (api : List Part → Except JsError GenResponse) (j : Json)
    (hok : analyzeDocument apiKey text files api = Except.ok j)
    (hschema : matchesResponseSchema j = true) :
    (decodeAptusResponse j).isSome = true :=
  decode_of_matches j hschema

/-- Witness for C3 on a concrete successful call returning a conforming
payload. -/
theorem analyzeDocument_success_shape_witness :
    (decodeAptusResponse (Json.obj
      [("tldr", Json.str "A summons."), ("ruleLens", Json.arr []),
       ("actionableSteps", Json.arr [Json.str "Reply by May 1."]),
       ("sourceCitation", Json.str "Page 1.")])).isSome = true :=
  analyzeDocument_success_shape (some "key") "hello" []
    (fun _ => Except.ok ⟨none, some (Json.obj
      [("tldr", Json.str "A summons."), ("ruleLens", Json.arr []),
       ("actionableSteps", Json.arr [Json.str "Reply by May 1."]),
       ("sourceCitation", Json.str "Page 1.")])⟩)
    (Json.obj
      [("tldr", Json.str "A summons."), ("ruleLens", Json.arr []),
       ("actionableSteps", Json.arr [Json.str "Reply by May 1."]),
       ("sourceCitation", Json.str "Page 1.")])
    (by rfl) rfl

/-- C8: `analyzeDocument` rejects degenerate inputs before contacting the
external API. With a falsy API key it throws the missing-key error, and
with a truthy key but no parts — which happens exactly when the processed
files contribute no parts and the typed text is empty or whitespace-only —
it throws the no-input error; in both cases the result does not depend on
the API function, so no model request is issued. -/
theorem analyzeDocument_degenerate (apiKey : Option String) (text : String)
    (files : List ProcessedPart) :
    (truthyOpt apiKey = false →
      ∀ api, analyzeDocument apiKey text files api =
        Except.error ⟨some "System Error: API Key is missing. Please check configuration.", none⟩) ∧
    (truthyOpt apiKey = true → files.filterMap toPart = [] → jsTrim text = "" →
      ∀ api, analyzeDocument apiKey text files api =
        Except.error ⟨some "No input provided. Please upload a file or enter text.", none⟩) ∧
    (buildParts text files = [] ↔ (files.filterMap toPart = [] ∧ jsTrim text = "")) := by
  refine ⟨?_, ?_, ?_⟩
  · intro hkey api
    simp [analyzeDocument, hkey]
  · intro hkey hfp htext api
    have hparts : buildParts text files = [] := by
      simp [buildParts, hfp, htext]
    simp [analyzeDocument, hkey, hparts]
  · constructor
    · intro hb
      simp only [buildParts] at hb
      rw [List.append_eq_nil] at hb
      obtain ⟨h1, h2⟩ := hb
      refine ⟨h1, ?_⟩
      by_cases ht : jsTrim text = ""
      · exact ht
      · rw [if_neg (by simpa using ht)] at h2
        exact absurd h2 (by simp)
    · intro hb
      obtain ⟨h1, h2⟩ := hb
      simp [buildParts, h1, h2]

/-- Witness for C8 at a concrete missing API key. -/
theorem analyzeDocument_degenerate_witness :
    analyzeDocument none "some text" [] (fun _ => Except.ok ⟨none, none⟩) =
      Except.error ⟨some "System Error: API Key is missing. Please check configuration.", none⟩ :=
  (analyzeDocument_degenerate none "some text" []).1 rfl (fun _ => Except.ok ⟨none, none⟩)

/-- On success, the traversal yields one result per file, in order. -/
theorem traverseFiles_ok (g : JsFile → Except JsError ProcessedPart) :
    ∀ (files : List JsFile) (parts : List ProcessedPart),
      traverseFiles g files = Except.ok parts →
      parts.length = files.length ∧
      ∀ (i : Nat) (hf : i < files.length) (hp : i < parts.length),
        g files[i] = Except.ok parts[i] := by
  intro files
  induction files with
  | nil =>
    intro parts hok2
    simp only [traverseFiles, Except.ok.injEq] at hok2
    subst hok2
    exact ⟨rfl, fun i hf => absurd hf (by simp)⟩
  | cons f fs ih =>
    intro parts hok2
    simp only [traverseFiles] at hok2
    cases hgf : g f with
    | error e => rw [hgf] at hok2; simp at hok2
    | ok p =>
      rw [hgf] at hok2
      cases htf : traverseFiles g fs with
      | error e => rw [htf] at hok2; simp at hok2
      | ok ps =>
        rw [htf] at hok2
        simp only [Except.ok.injEq] at hok2
        subst hok2
        obtain ⟨hlen, hidx⟩ := ih ps htf
        refine ⟨by simp [hlen], ?_⟩
        intro i hf hp
        cases i with
        | zero => simpa using hgf
        | succ i2 =>
          simp only [List.getElem_cons_succ]
          exact hidx i2 (by simpa using hf) (by simpa using hp)

/-- On failure, the traversal fails with the error of some member file. -/
theorem traverseFiles_error_mem (g : JsFile → Except JsError ProcessedPart) :
    ∀ (files : List JsFile) (e : JsError),
      traverseFiles g files = Except.error e →
      ∃ f, f ∈ files ∧ g f = Except.error e := by
  intro files
  induction files with
  | nil => intro e hbad; simp [traverseFiles] at hbad
  | cons f fs ih =>
    intro e hbad
    simp only [traverseFiles] at hbad
    cases hgf : g f with
    | error e2 =>
      rw [hgf] at hbad
      cases htf : traverseFiles g fs with
      | error e3 =>
        rw [htf] at hbad
        simp only [Except.error.injEq] at hbad
        subst hbad
        exact ⟨f, by simp, hgf⟩
      | ok ps =>
        rw [htf] at hbad
        simp only [Except.error.injEq] at hbad
        subst hbad
        exact ⟨f, by simp, hgf⟩
    | ok p =>
      rw [hgf] at hbad
      cases htf : traverseFiles g fs with
      | ok ps => rw [htf] at hbad; simp at hbad
      | error e3 =>
        rw [htf] at hbad
        simp only [Except.error.injEq] at hbad
        subst hbad
        obtain ⟨f2, hmem, hf2⟩ := ih e3 htf
        exact ⟨f2, by simp [hmem], hf2⟩

/-- On success, every member file was processed successfully. -/
theorem traverseFiles_mem_ok (g : JsFile → Except JsError ProcessedPart) :
    ∀ (files : List JsFile) (parts : List ProcessedPart),
      traverseFiles g files = Except.ok parts →
      ∀ f, f ∈ files → ∃ p, g f = Except.ok p := by
  intro files
  induction files with
  | nil => intro parts _ f hmem; simp at hmem
  | cons f0 fs ih =>
    intro parts hok2 f hmem
    simp only [traverseFiles] at hok2
    cases hgf : g f0 with
    | error e => rw [hgf] at hok2; simp at hok2
    | ok p =>
      rw [hgf] at hok2
      cases htf : traverseFiles g fs with
      | error e => rw [htf] at hok2; simp at hok2
      | ok ps =>
        rcases List.mem_cons.mp hmem with rfl | hmem2
        · exact ⟨p, hgf⟩
        · exact ih ps htf f hmem2

/-- Every failure of per-file processing carries the canonical message. -/
theorem processOneFile_error_msg (rt rb cp : JsFile → Except JsError String) (f : JsFile) :
    ∀ e, processOneFile rt rb cp f = Except.error e →
      e = ⟨some ("Could not process " ++ f.name ++ ". Please try a different file."), none⟩ := by
  intro e hbad
  simp only [processOneFile] at hbad
  split at hbad
  · exact absurd hbad (by simp)
  · simp only [Except.error.injEq] at hbad
    exact hbad.symm

/-- C4: `processFilesForGemini` returns one processed part per file, in the
same order, each obtained by MIME-type dispatch: a `text/plain` file
becomes a text-content part wrapping the raw file text between
`[Attached File: <name>]` and `---`; an `image/*` file becomes an
inline-data part holding the MIME type and base64 data parsed from its
compressed JPEG data URL; every other file becomes an inline-data part
parsed from the base64 data URL of its original bytes; and when processing
any file fails, the whole operation fails with the error
`Could not process <name>. Please try a different file.`. -/
theorem processFilesForGemini_dispatch
    (rt rb cp : JsFile → Except JsError String) (files : List JsFile) :
    (∀ parts, processFilesForGemini rt rb cp files = Except.ok parts →
      parts.length = files.length ∧
      ∀ (i : Nat) (hf : i < files.length) (hp : i < parts.length),
        processOneFile rt rb cp files[i] = Except.ok parts[i]) ∧
    (∀ f : JsFile,
      (f.type = "text/plain" → ∀ t, rt f = Except.ok t →
        processOneFile rt rb cp f = Except.ok
          ⟨PPType.text_content, none, none,
           some ("[Attached File: " ++ f.name ++ "]\n" ++ t ++ "\n---")⟩) ∧
      (f.type ≠ "text/plain" → strStarts f.type "image/" = true →
        ∀ u mt d, cp f = Except.ok u → parseDataUrl u = Except.ok (mt, d) →
        processOneFile rt rb cp f =
          Except.ok ⟨PPType.inline_data, some mt, some d, none⟩) ∧
      (f.type ≠ "text/plain" → strStarts f.type "image/" = false →
        ∀ u mt d, rb f = Except.ok u → parseDataUrl u = Except.ok (mt, d) →
        processOneFile rt rb cp f =
          Except.ok ⟨PPType.inline_data, some mt, some d, none⟩) ∧
      (∀ e, processOneFile rt rb cp f = Except.error e →
        e = ⟨some ("Could not process " ++ f.name ++ ". Please try a different file."), none⟩)) ∧
    (∀ e, processFilesForGemini rt rb cp files = Except.error e →
      ∃ f, f ∈ files ∧
        e = ⟨some ("Could not process " ++ f.name ++ ". Please try a different file."), none⟩) ∧
    ((∃ f, f ∈ files ∧ ∃ e, processOneFile rt rb cp f = Except.error e) →
      ∃ e, processFilesForGemini rt rb cp files = Except.error e) := by
  refine ⟨?_, ?_, ?_, ?_⟩
  · intro parts hok2
    exact traverseFiles_ok (processOneFile rt rb cp) files parts hok2
  · intro f
    refine ⟨?_, ?_, ?_, processOneFile_error_msg rt rb cp f⟩
    · intro htype t hrt
      have hb : (f.type == "text/plain") = true := beq_iff_eq.mpr htype
      simp [processOneFile, hb, hrt, Except.map]
    · intro htype himg u mt d hcp hparse
      have hb : (f.type == "text/plain") = false := beq_eq_false_iff_ne.mpr htype
      simp [processOneFile, hb, himg, hcp, hparse, Except.map, Except.bind]
    · intro htype himg u mt d hrb hparse
      have hb : (f.type == "text/plain") = false := beq_eq_false_iff_ne.mpr htype
      simp [processOneFile, hb, himg, hrb, hparse, Except.map, Except.bind]
  · intro e hbad
    obtain ⟨f, hmem, hf⟩ :=
      traverseFiles_error_mem (processOneFile rt rb cp) files e hbad
    exact ⟨f, hmem, processOneFile_error_msg rt rb cp f e hf⟩
  · intro hex
    obtain ⟨f, hmem, e, hf⟩ := hex
    cases hall : processFilesForGemini rt rb cp files with
    | error e2 => exact ⟨e2, rfl⟩
    | ok parts =>
      obtain ⟨p, hp⟩ :=
        traverseFiles_mem_ok (processOneFile rt rb cp) files parts hall f hmem
      rw [hp] at hf
      exact absurd hf (by simp)

/-- Witness for C4 on a concrete plain-text file with a concrete reader. -/
theorem processFilesForGemini_dispatch_witness :
    processOneFile (fun _ => Except.ok "CONTENT") (fun _ => Except.ok "x")
        (fun _ => Except.ok "y") ⟨"notes.txt", "text/plain", 10⟩ =
      Except.ok ⟨PPType.text_content, none, none,
        some "[Attached File: notes.txt]\nCONTENT\n---"⟩ :=
  (((processFilesForGemini_dispatch (fun _ => Except.ok "CONTENT")
      (fun _ => Except.ok "x") (fun _ => Except.ok "y") []).2.1
      ⟨"notes.txt", "text/plain", 10⟩).1) rfl "CONTENT" rfl

/-- C5: the resizing step of `compressImage` never upscales and preserves
the aspect ratio. For positive source dimensions: when both fit within
`MAX_IMAGE_DIMENSION` (1536) they are unchanged; when the larger dimension
exceeds 1536 the output's larger side equals 1536, the width/height ratio
is preserved (stated by cross-multiplication) and the smaller side does
not grow. -/
theorem resizeDims_spec (w h : ℚ) (hw : 0 < w) (hh : 0 < h) :
    (max w h ≤ MAX_IMAGE_DIMENSION → resizeDims w h = (w, h)) ∧
    (MAX_IMAGE_DIMENSION < max w h →
      max (resizeDims w h).1 (resizeDims w h).2 = MAX_IMAGE_DIMENSION ∧
      (resizeDims w h).1 * h = w * (resizeDims w h).2 ∧
      min (resizeDims w h).1 (resizeDims w h).2 ≤ min w h) := by
  have hM : (0:ℚ) < MAX_IMAGE_DIMENSION := by norm_num [MAX_IMAGE_DIMENSION]
  constructor
  · intro hle
    rw [max_le_iff] at hle
    unfold resizeDims
    by_cases hcmp : h < w
    · rw [if_pos hcmp, if_neg (not_lt.mpr hle.1)]
    · rw [if_neg hcmp, if_neg (not_lt.mpr hle.2)]
  · intro hgt
    unfold resizeDims
    by_cases hcmp : h < w
    · have hmax : max w h = w := max_eq_left hcmp.le
      rw [hmax] at hgt
      rw [if_pos hcmp, if_pos hgt]
      have hscaled : h * (MAX_IMAGE_DIMENSION / w) ≤ MAX_IMAGE_DIMENSION := by
        rw [mul_div_assoc', div_le_iff hw]
        nlinarith [hcmp.le, hM.le]
      refine ⟨max_eq_left hscaled, ?_, ?_⟩
      · field_simp
        ring
      · have hfac : MAX_IMAGE_DIMENSION / w ≤ 1 := by
          rw [div_le_one hw]
          exact hgt.le
        have hless : h * (MAX_IMAGE_DIMENSION / w) ≤ h := by
          nlinarith [hfac, hh.le, div_nonneg hM.le hw.le]
        calc min MAX_IMAGE_DIMENSION (h * (MAX_IMAGE_DIMENSION / w))
            ≤ h * (MAX_IMAGE_DIMENSION / w) := min_le_right _ _
          _ ≤ h := hless
          _ = min w h := (min_eq_right hcmp.le).symm
    · have hwle : w ≤ h := not_lt.mp hcmp
      have hmax : max w h = h := max_eq_right hwle
      rw [hmax] at hgt
      rw [if_neg hcmp, if_pos hgt]
      have hscaled : w * (MAX_IMAGE_DIMENSION / h) ≤ MAX_IMAGE_DIMENSION := by
        rw [mul_div_assoc', div_le_iff hh]
        nlinarith [hwle, hM.le]
      refine ⟨max_eq_right hscaled, ?_, ?_⟩
      · field_simp
      · have hfac : MAX_IMAGE_DIMENSION / h ≤ 1 := by
          rw [div_le_one hh]
          exact hgt.le
        have hless : w * (MAX_IMAGE_DIMENSION / h) ≤ w := by
          nlinarith [hfac, hw.le, div_nonneg hM.le hh.le]
        calc min (w * (MAX_IMAGE_DIMENSION / h)) MAX_IMAGE_DIMENSION
            ≤ w * (MAX_IMAGE_DIMENSION / h) := min_le_left _ _
          _ ≤ w := hless
          _ = min w h := (min_eq_left hwle).symm

/-- Witness for C5 on a concrete oversized 3072 by 1536 image. -/
theorem resizeDims_spec_witness :
    max (resizeDims 3072 1536).1 (resizeDims 3072 1536).2 = MAX_IMAGE_DIMENSION :=
  ((resizeDims_spec 3072 1536 (by norm_num) (by norm_num)).2
    (by norm_num [MAX_IMAGE_DIMENSION])).1

/-- C6: when the analysis pipeline of a submission throws, `handleSubmit`
ends with status ERROR, an error message equal to the thrown error's
message (or the default message when the message is absent or empty),
a null result, and the input state — typed text, uploaded files, selected
language — exactly as it was before the submission. -/
theorem handleSubmit_error_state (s : AppState) (e : JsError) :
    (handleSubmit s (Except.error e)).status = AppStatus.ERROR ∧
    (handleSubmit s (Except.error e)).result = none ∧
    (handleSubmit s (Except.error e)).inputState = s.inputState ∧
    (∀ m, e.message = some m → m ≠ "" →
      (handleSubmit s (Except.error e)).errorMsg = m) ∧
    ((e.message = none ∨ e.message = some "") →
      (handleSubmit s (Except.error e)).errorMsg = submitDefaultError) := by
  refine ⟨rfl, rfl, rfl, ?_, ?_⟩
  · intro m hm hne
    simp [handleSubmit, hm, hne]
  · intro hm
    rcases hm with hm | hm <;> simp [handleSubmit, hm]

/-- Witness for C6 at a concrete state and thrown error. -/
theorem handleSubmit_error_state_witness :
    (handleSubmit ⟨AppStatus.IDLE, ⟨"draft", [], "English"⟩, none, "", false⟩
        (Except.error ⟨some "boom", none⟩)).errorMsg = "boom" :=
  (handleSubmit_error_state ⟨AppStatus.IDLE, ⟨"draft", [], "English"⟩, none, "", false⟩
      ⟨some "boom", none⟩).2.2.2.1 "boom" rfl (by decide)

/-- C9: `handleFiles` admits exactly the supported uploads. The new file
list is the previous one with exactly the files of size at most
`MAX_FILE_SIZE_BYTES` and of MIME type `image/*`, `application/pdf` or
`text/plain` appended in submission order, and the validation messages are
exactly one rejection message per rejected file — `exceeds 20MB.` for
oversized files, `is not supported.` for wrong types, with the size check
taking priority. -/
theorem handleFiles_spec (prevFiles files : List JsFile) :
    (handleFiles prevFiles files).1 = prevFiles ++ files.filter acceptsFile ∧
    (handleFiles prevFiles files).2 = files.filterMap rejectMessage := by
  have hscan : ∀ fs : List JsFile,
      handleFilesScan fs = (fs.filter acceptsFile, fs.filterMap rejectMessage) := by
    intro fs
    induction fs with
    | nil => rfl
    | cons f fs ih =>
      by_cases hsize : f.size > MAX_FILE_SIZE_BYTES
      · have ha : acceptsFile f = false := by
          simp only [acceptsFile, Bool.and_eq_false_iff]
          exact Or.inl (by simp [Nat.not_le.mpr hsize])
        have hr : rejectMessage f =
            some ("\"" ++ f.name ++ "\" exceeds " ++ toString MAX_FILE_SIZE_MB ++ "MB.") := by
          simp [rejectMessage, hsize]
        simp [handleFilesScan, ih, hsize, List.filter_cons, List.filterMap_cons, ha, hr]
      · by_cases htype :
            (strStarts f.type "image/" || f.type == "application/pdf" ||
              f.type == "text/plain") = true
        · have ha : acceptsFile f = true := by
            simp only [acceptsFile, Bool.and_eq_true]
            exact ⟨by simp [Nat.not_lt.mp hsize], htype⟩
          have hr : rejectMessage f = none := by
            simp [rejectMessage, hsize, htype]
          simp [handleFilesScan, ih, hsize, htype, List.filter_cons,
            List.filterMap_cons, ha, hr]
        · have ha : acceptsFile f = false := by
            simp only [acceptsFile, Bool.and_eq_false_iff]
            exact Or.inr (by simpa using htype)
          have hr : rejectMessage f = some ("\"" ++ f.name ++ "\" is not supported.") := by
            simp only [rejectMessage, if_neg hsize]
            rw [if_neg (by simpa using htype)]
          simp [handleFilesScan, ih, hsize, htype, List.filter_cons,
            List.filterMap_cons, ha, hr]
  simp [handleFiles, hscan files]

/-- C10: `handleReset` clears only the per-request state: status back to
IDLE, result null, typed text and uploaded files emptied, while the
selected language, the displayed error message and the dark-mode flag are
left unchanged. -/
theorem handleReset_frame (s : AppState) :
    (handleReset s).status = AppStatus.IDLE ∧
    (handleReset s).result = none ∧
    (handleReset s).inputState.text = "" ∧
    (handleReset s).inputState.files = [] ∧
    (handleReset s).inputState.language = s.inputState.language ∧
    (handleReset s).errorMsg = s.errorMsg ∧
    (handleReset s).isDarkMode = s.isDarkMode :=
  ⟨rfl, rfl, rfl, rfl, rfl, rfl, rfl⟩

/-- Every UI event step preserves the single-outstanding-request invariant. -/
theorem uiStep_invariant (s s2 : UiState) (hstep : UiStep s s2)
    (hle : s.pending ≤ 1) (hzero : s.status ≠ AppStatus.PROCESSING → s.pending = 0) :
    s2.pending ≤ 1 ∧ (s2.status ≠ AppStatus.PROCESSING → s2.pending = 0) := by
  cases hstep with
  | submit hen =>
    have hnp : s.status ≠ AppStatus.PROCESSING := by
      intro hps
      simp [submitEnabled, hps] at hen
    have h0 : s.pending = 0 := hzero hnp
    exact ⟨by simp [h0], fun hns => absurd rfl hns⟩
  | settle ok hp =>
    constructor
    · simp only
      omega
    · intro _
      simp only
      omega
  | reset hs =>
    have h0 : s.pending = 0 := hzero (by rw [hs]; simp)
    exact ⟨by simp [h0], fun _ => by simp [h0]⟩
  | edit t fs u => exact ⟨hle, hzero⟩

/-- C7: in every reachable UI state at most one analysis request is
outstanding; a request can only be in flight while the status is
PROCESSING, and every step that starts a new request — a click on the
submit button, which is disabled while `isLoading` — departs from a
non-PROCESSING status. -/
theorem single_outstanding_request (s : UiState) (h : Reachable s) :
    (s.pending ≤ 1 ∧ (s.status ≠ AppStatus.PROCESSING → s.pending = 0)) ∧
    (∀ s', UiStep s s' → s.pending < s'.pending → s.status ≠ AppStatus.PROCESSING) := by
  constructor
  · induction h with
    | init => exact ⟨by simp [uiInit], fun _ => rfl⟩
    | step hr hstep ih => exact uiStep_invariant _ _ hstep ih.1 ih.2
  · intro s' hstep hinc
    cases hstep with
    | submit hen =>
      intro hps
      simp [submitEnabled, hps] at hen
    | settle ok hp =>
      simp only at hinc
      omega
    | reset hs => simp at hinc
    | edit t fs u => simp at hinc

/-- Witness for C7 at the initial (reachable) state. -/
theorem single_outstanding_request_witness : uiInit.pending ≤ 1 :=
  ((single_outstanding_request uiInit Reachable.init).1).1

end Aptus
